import Mathlib

/-!
Verification of the netty codec of `packages/services/lib/codecs/netty.js`:
the framed wire codec (NettyDecoder / NettyEncoder), the packet payload codec
(NettyPacket), the client bridge (NettyBridge) and the server gateway
(NettyGateway).  Byte buffers are modelled as lists of naturals, JS signed
32-bit reads and writes as explicit arithmetic, and the external schema
codecs (handshake records, header maps) as an abstract `Codec` interface,
as pinned by the specification of the collaborator layer.
-/

namespace Netty

/-- Byte buffers (Node `Buffer` values) are modelled as lists of naturals. -/
abbrev Bytes := List Nat

/-- JS `Buffer.prototype.slice(start, stop)`: negative indices count from the
end, and both indices are clamped to the buffer bounds. -/
def jsSlice (buf : Bytes) (start stop : Int) : Bytes :=
  let n : Int := buf.length
  let s : Int := if start < 0 then max (n + start) 0 else min start n
  let e : Int := if stop < 0 then max (n + stop) 0 else min stop n
  (buf.drop s.toNat).take (e - s).toNat

/-- JS `buf.writeInt32BE(n)`: the two-complement image of `n` split into four
big-endian bytes (4294967296 = 2 to the 32, 16777216 = 2 to the 24, 65536 =
2 to the 16). -/
def writeInt32BE (n : Int) : Bytes :=
  let u := (n % 4294967296).toNat
  [u / 16777216 % 256, u / 65536 % 256, u / 256 % 256, u % 256]

/-- JS `buf.writeInt32BE` raises a `RangeError` outside the signed 32-bit
range; the checked variant models that failure as `none`. -/
def writeInt32BEChecked (n : Int) : Option Bytes :=
  if -2147483648 ≤ n ∧ n < 2147483648 then some (writeInt32BE n) else none

/-- JS `buf.readInt32BE(0)`: recompose the first four bytes big-endian and
re-interpret as a signed 32-bit integer (2147483648 = 2 to the 31). -/
def readInt32BE (buf : Bytes) : Int :=
  match buf with
  | b0 :: b1 :: b2 :: b3 :: _ =>
    let u := (b0 % 256) * 16777216 + (b1 % 256) * 65536 + (b2 % 256) * 256 + b3 % 256
    if u < 2147483648 then (u : Int) else (u : Int) - 4294967296
  | _ => 0

/-- Modelled from the spec: the external schema codecs (`handshakeRequestType`,
`handshakeResponseType`, `mapOfBytesType`, ...) are collaborators outside this
module; each supports `toBuffer(value)` and `decode(buffer, offset)` where a
negative returned offset means truncation.  `decode` is modelled at offset 0,
with `none` standing for a negative offset or a raised decoding error. -/
structure Codec (α : Type) where
  toBuffer : α → Bytes
  decode : Bytes → Option (α × Nat)

/-- A codec is lawful when decoding one of its own encodings, followed by any
remaining bytes, returns the encoded value and consumes exactly the encoding. -/
def Codec.Lawful {α : Type} (c : Codec α) : Prop :=
  ∀ v rest, c.decode (c.toBuffer v ++ rest) = some (v, (c.toBuffer v).length)

/-- NettyPacket (source lines 666-694): a header map plus a raw body. -/
structure NettyPacket (H : Type) where
  headers : H
  body : Bytes
deriving DecidableEq

/-- NettyPacket.toPayload: schema-encoded headers followed by the raw body. -/
def toPayload {H : Type} (mc : Codec H) (p : NettyPacket H) : Bytes :=
  mc.toBuffer p.headers ++ p.body

/-- NettyPacket.forPayload: decode the header map, fail on a negative offset
(`truncated request headers`), and treat the remaining bytes as the body. -/
def forPayload {H : Type} (mc : Codec H) (buf : Bytes) : Option (NettyPacket H) :=
  match mc.decode buf with
  | none => none
  | some (hs, off) => some { headers := hs, body := jsSlice buf (off : Int) (buf.length : Int) }

/-- A decoded or to-be-encoded frame group object: id, optional handshake and
packet, as pushed by `NettyDecoder` and written to `NettyEncoder`. -/
structure FrameObj (α H : Type) where
  handshake : Option α
  id : Int
  packet : NettyPacket H
deriving DecidableEq

/-- NettyEncoder._encode (lines 635-642): the payload frame, preceded by the
handshake frame when a handshake is present. -/
def nettyEncodeFrames {α H : Type} (hc : Codec α) (mc : Codec H) (obj : FrameObj α H) :
    List Bytes :=
  let bufs := [toPayload mc obj.packet]
  match obj.handshake with
  | some h => hc.toBuffer h :: bufs
  | none => bufs

/-- Frame serialization of NettyEncoder._transform (lines 657-661): each frame
is its 32-bit big-endian length followed by its bytes. -/
def encodeFrameList : List Bytes → Option Bytes
  | [] => some []
  | b :: rest =>
    (writeInt32BEChecked (b.length : Int)).bind fun len =>
      (encodeFrameList rest).map fun tail => len ++ b ++ tail

/-- NettyEncoder._transform (lines 644-663): 8-byte header holding the id and
the number of frames, followed by the length-prefixed frames. -/
def nettyEncode {α H : Type} (hc : Codec α) (mc : Codec H) (obj : FrameObj α H) :
    Option Bytes :=
  let bufs := nettyEncodeFrames hc mc obj
  (writeInt32BEChecked obj.id).bind fun head =>
    (writeInt32BEChecked (bufs.length : Int)).bind fun cnt =>
      (encodeFrameList bufs).map fun frames => head ++ cnt ++ frames

/-- One payload decode attempt, the inner `decode(withHandshake)` closure of
NettyDecoder._decode (lines 598-612): with a handshake, decode the handshake
record then the rest as a packet; without, the whole buffer is the packet. -/
def decodeAttempt {α H : Type} (hc : Codec α) (mc : Codec H) (withHandshake : Bool)
    (buf : Bytes) : Option (Option α × NettyPacket H) :=
  if withHandshake then
    match hc.decode buf with
    | none => none
    | some (hv, off) =>
      match forPayload mc (jsSlice buf (off : Int) (buf.length : Int)) with
      | none => none
      | some p => some (some hv, p)
  else
    match forPayload mc buf with
    | none => none
    | some p => some (none, p)

/-- NettyDecoder._decode (lines 581-613).  NOTE: the `catch` block at line 589
retries `decode(this._expectHandshake)` with the SAME mode flag as the first
attempt.  Returns the decoded object and the new `_expectHandshake` flag, or
`none` when the error surfaces. -/
def nettyDecode {α H : Type} (hc : Codec α) (mc : Codec H) (expect : Bool) (id : Int)
    (buf : Bytes) : Option (FrameObj α H × Bool) :=
  let first := decodeAttempt hc mc expect buf
  let result := match first with
    | some r => some r
    | none => decodeAttempt hc mc expect buf
  match result with
  | none => none
  | some (hv, p) =>
    some ({ handshake := hv, id := id, packet := p },
          if hv.isNone && expect then false else expect)

/-- Modelled from the spec: the decode step as the specification describes it
(section 4.1): if decoding under the current handshake expectation fails,
retry in the OTHER mode; a first successful no-handshake decode downgrades
the expectation flag. -/
def nettyDecodeSpec {α H : Type} (hc : Codec α) (mc : Codec H) (expect : Bool) (id : Int)
    (buf : Bytes) : Option (FrameObj α H × Bool) :=
  let first := decodeAttempt hc mc expect buf
  let result := match first with
    | some r => some r
    | none => decodeAttempt hc mc (!expect) buf
  match result with
  | none => none
  | some (hv, p) =>
    some ({ handshake := hv, id := id, packet := p },
          if hv.isNone && expect then false else expect)

/-- Persistent NettyDecoder parsing state (constructor, lines 524-534). -/
structure DecoderState (α H : Type) where
  expectHandshake : Bool := true
  id : Option Int := none
  frameCount : Int := 0
  buf : Bytes := []
  bufs : List Bytes := []
deriving DecidableEq

/-- Inner frame-consuming loop of NettyDecoder._transform (lines 551-560):
while frames remain and a complete length-prefixed frame is buffered, strip
its 4-byte length, stash its bytes and decrement the remaining frame count.
The fuel bounds the iteration count; every terminating run of the JS loop is
reproduced by any sufficiently large fuel. -/
def readFrames : Nat → Int → Bytes → List Bytes → Int × Bytes × List Bytes
  | 0, fc, buf, bufs => (fc, buf, bufs)
  | fuel + 1, fc, buf, bufs =>
    if fc ≠ 0 ∧ 4 ≤ buf.length ∧ (buf.length : Int) ≥ readInt32BE buf + 4 then
      readFrames fuel (fc - 1)
        (jsSlice buf (readInt32BE buf + 4) (buf.length : Int))
        (bufs ++ [jsSlice buf 4 (readInt32BE buf + 4)])
    else (fc, buf, bufs)

/-- Header step of NettyDecoder._transform (lines 540-549): when no id is
pending, an 8-byte header (id, frame count, both int32 big-endian) is read
once at least 8 bytes are buffered, `none` meaning buffer-and-wait; a pending
id passes through with the saved frame count. -/
def transformHeader (idOpt : Option Int) (fc : Int) (buf : Bytes) :
    Option (Int × Int × Bytes) :=
  match idOpt with
  | some i => some (i, fc, buf)
  | none =>
    if buf.length < 8 then none
    else some (readInt32BE buf, readInt32BE (buf.drop 4), buf.drop 8)

/-- Outer `while (true)` loop of NettyDecoder._transform (lines 536-579):
read a header (`transformHeader`), consume complete frames (`readFrames`),
then either buffer and wait (returning the emitted objects so far and the new
state), or decode, emit the finished frame group and continue.  `none` models
a raised decoding error ending the stream; the fuel bounds the iteration
count and is irrelevant for any terminating run. -/
def transformGo {α H : Type} (hc : Codec α) (mc : Codec H) :
    Nat → Bool → Option Int → Int → List Bytes → Bytes → List (FrameObj α H) →
    Option (List (FrameObj α H) × DecoderState α H)
  | 0, _, _, _, _, _, _ => none
  | fuel + 1, expect, idOpt, fc, bufs, buf, acc =>
    match transformHeader idOpt fc buf with
    | none =>
      some (acc.reverse,
        { expectHandshake := expect, id := none, frameCount := fc, buf := buf, bufs := bufs })
    | some (i, fc1, buf1) =>
      match readFrames (buf1.length + 1) fc1 buf1 bufs with
      | (fc2, buf2, bufs2) =>
        if fc2 ≠ 0 then
          some (acc.reverse,
            { expectHandshake := expect, id := some i, frameCount := fc2, buf := buf2,
              bufs := bufs2 })
        else
          match nettyDecode hc mc expect i bufs2.flatten with
          | none => none
          | some (obj, expect2) => transformGo hc mc fuel expect2 none 0 [] buf2 (obj :: acc)

/-- NettyDecoder._transform on one input chunk: prepend the buffered leftover
bytes and run the parsing loop from the persisted state. -/
def decoderTransform {α H : Type} (hc : Codec α) (mc : Codec H) (st : DecoderState α H)
    (chunk : Bytes) : Option (List (FrameObj α H) × DecoderState α H) :=
  let buf := st.buf ++ chunk
  transformGo hc mc (buf.length + 2) st.expectHandshake st.id st.frameCount st.bufs buf []

/-- NettyDecoder._flush (lines 615-625): residual buffered bytes at end of
input raise a `trailing data` error carrying the leftover bytes (the pending
partial header or frame bytes first, then the completed buffered frames);
a clean frame-group boundary raises nothing. -/
def decoderFlush {α H : Type} (st : DecoderState α H) : Option Bytes :=
  if st.buf.length ≠ 0 ∨ st.bufs.length ≠ 0 then
    some ((st.buf :: st.bufs).flatten)
  else none

/-! Association lists model the JS `Map` values held by the bridge and the
gateway (`_callbacks`, `_serverServices`, `_hashes`, `_clientServices`) and
the plain-object `meta` maps. -/

/-- Lookup in an association list, first binding wins (JS `Map.get`). -/
def alookup {κ ν : Type} [DecidableEq κ] : List (κ × ν) → κ → Option ν
  | [], _ => none
  | (k, v) :: rest, k0 => if k0 = k then some v else alookup rest k0

/-- Insert or overwrite a binding (JS `Map.set`). -/
def ainsert {κ ν : Type} [DecidableEq κ] : List (κ × ν) → κ → ν → List (κ × ν)
  | [], k0, v0 => [(k0, v0)]
  | (k, v) :: rest, k0, v0 =>
    if k0 = k then (k0, v0) :: rest else (k, v) :: ainsert rest k0 v0

/-- Remove the binding for a key (JS `Map.delete`). -/
def aerase {κ ν : Type} [DecidableEq κ] : List (κ × ν) → κ → List (κ × ν)
  | [], _ => []
  | (k, v) :: rest, k0 => if k0 = k then rest else (k, v) :: aerase rest k0

/-- Modelled from the spec: a `Service` (schema-layer collaborator) carries a
stable hash (a 16-byte fingerprint, held as a binary string) and a protocol
description; the protocol is opaque here and represented by its JSON text, so
`JSON.stringify(svc.protocol)` is represented by `protocol` itself. -/
structure Service where
  hash : String
  protocol : String
deriving DecidableEq

/-- Handshake match enumeration (responses only). -/
inductive MatchKind
  | BOTH
  | CLIENT
  | NONE
deriving DecidableEq

/-- Decoded handshake response record as consulted by the bridge data handler:
match, optional server hash (binary string form) and optional server protocol
text.  The record also carries a meta map, never read by the handler. -/
structure HandshakeRes where
  matchKind : MatchKind
  serverHash : Option String
  serverProtocol : Option String
deriving DecidableEq

/-- Handshake request record built by NettyBridge._send (lines 248-256). -/
structure HandshakeReq where
  clientHash : String
  serverHash : String
  meta : Option (List (String × Bytes))
  clientProtocol : Option String
deriving DecidableEq

/-- Modelled from the spec: the in-memory request `Packet` from the channel
layer, `(id, service, body, headers)`. -/
structure PacketReq where
  id : Int
  service : Service
  body : Bytes
  headers : List (String × Bytes)
deriving DecidableEq

/-- Pending-call record stored in `_callbacks` by NettyBridge._track (lines
281-291); the continuation itself is modelled through emitted actions. -/
structure CallObj where
  meta : List (String × Bytes)
  preq : PacketReq
  retried : Bool
deriving DecidableEq

/-- Mutable NettyBridge state (constructor, lines 113-120). -/
structure BridgeState where
  closed : Bool := false
  serverServices : List (String × Service) := []
  hashes : List (String × String) := []
  callbacks : List (Int × CallObj) := []
deriving DecidableEq

/-- Frame-group object written to the request encoder by NettyBridge._send. -/
structure SendFrame where
  handshake : HandshakeReq
  id : Int
  packet : NettyPacket (List (String × Bytes))
deriving DecidableEq

/-- Decoded response object consumed by the bridge data handler. -/
structure RespObj where
  handshake : HandshakeRes
  id : Int
  packet : NettyPacket (List (String × Bytes))
deriving DecidableEq

/-- Observable effect of one bridge data-handler invocation. -/
inductive BridgeAction
  | ignore
  | crash (msg : String)
  | resend (frame : SendFrame)
  | deliver (id : Int) (svc : Option Service) (p : NettyPacket (List (String × Bytes)))
deriving DecidableEq

/-- NettyBridge._send (lines 245-261): build the request handshake; the server
hash falls back to the client hash when unknown (a 16-byte binary hash string
is never falsy, so `get(...) || clientSvc.hash` is an undefined-check); attach
the client protocol text exactly when `includePtcl` is set. -/
def sendObj (st : BridgeState) (preq : PacketReq) (meta : Option (List (String × Bytes)))
    (includePtcl : Bool) : SendFrame :=
  let clientSvc := preq.service
  let serverHash := (alookup st.hashes clientSvc.hash).getD clientSvc.hash
  { handshake :=
      { clientHash := clientSvc.hash
        serverHash := serverHash
        meta := meta
        clientProtocol := if includePtcl then some clientSvc.protocol else none }
    id := preq.id
    packet := { headers := preq.headers, body := preq.body } }

/-- Server-service resolution of the bridge data handler on a response without
handshake server fields (lines 185-190): follow the hash caches, defaulting
to the client service when the client hash was never mapped. -/
def resolveServerSvc (st : BridgeState) (clientSvc : Service) : Option Service :=
  match alookup st.hashes clientSvc.hash with
  | some serverHash => alookup st.serverServices serverHash
  | none => some clientSvc

/-- Retry-or-deliver tail of the bridge data handler (lines 191-198): a NONE
match on a not-yet-retried call flips `retried` and resends with the client
protocol attached; otherwise the response is delivered, which consumes the
one-shot continuation wrapper and untracks the call. -/
def finishData (st : BridgeState) (resp : RespObj) (obj : CallObj)
    (serverSvc : Option Service) : BridgeState × BridgeAction :=
  if resp.handshake.matchKind = MatchKind.NONE ∧ obj.retried = false then
    let st1 := { st with callbacks := ainsert st.callbacks resp.id { obj with retried := true } }
    (st1, .resend (sendObj st1 obj.preq obj.meta true))
  else
    ({ st with callbacks := aerase st.callbacks resp.id },
     .deliver resp.id serverSvc resp.packet)

/-- NettyBridge decoder `data` handler (lines 163-199).  `parseSvc` models
`new Service(JSON.parse(text))` (external schema layer), `none` meaning the
construction raised.  Two faithful crash cases: a response with a server
protocol but a null server hash raises a TypeError on `null.toString`, and a
parse failure reaches `destroy(err)` at line 178, which names no binding in
scope (the method is `this.destroy`), so a ReferenceError escapes and the
bridge is NOT destroyed. -/
def handleData (parseSvc : String → Option Service) (st : BridgeState) (resp : RespObj) :
    BridgeState × BridgeAction :=
  match alookup st.callbacks resp.id with
  | none => (st, .ignore)
  | some obj =>
    let clientSvc := obj.preq.service
    let clientHash := clientSvc.hash
    if resp.handshake.serverHash.isSome ∨ resp.handshake.serverProtocol.isSome then
      match resp.handshake.serverHash with
      | none => (st, .crash "TypeError: null serverHash has no toString")
      | some serverHash =>
        match resp.handshake.serverProtocol.bind parseSvc with
        | none => (st, .crash "ReferenceError: destroy is not defined")
        | some serverSvc =>
          let st1 := { st with
            serverServices := ainsert st.serverServices serverHash serverSvc
            hashes := ainsert st.hashes clientHash serverHash }
          finishData st1 resp obj (some serverSvc)
    else
      finishData st resp obj (resolveServerSvc st clientSvc)

/-- Is this action an escaped JS exception? -/
def isCrash : BridgeAction → Bool
  | .crash _ => true
  | _ => false

/-- Sequential processing of decoded responses by one bridge: a crash (an
escaped JS exception) stops the handler loop. -/
def processResponses (parseSvc : String → Option Service) :
    BridgeState → List RespObj → BridgeState × List BridgeAction
  | st, [] => (st, [])
  | st, r :: rs =>
    let step := handleData parseSvc st r
    if isCrash step.2 then (step.1, [step.2])
    else
      let next := processResponses parseSvc step.1 rs
      (next.1, step.2 :: next.2)

/-- Does this action resend the call with the given id over the encoder? -/
def isResendFor (i : Int) : BridgeAction → Bool
  | .resend f => f.id == i
  | _ => false

/-- Number of resends for a given call id among a list of bridge actions. -/
def countResends (i : Int) (acts : List BridgeAction) : Nat :=
  (acts.filter (isResendFor i)).length

/-- Well-formedness of a bridge state: the callbacks map has no duplicate ids
and each pending record is stored under the id of its own request (both are
maintained by `_track`, which keys the map by `preq.id`). -/
def BridgeWF (st : BridgeState) : Prop :=
  (st.callbacks.map Prod.fst).Nodup ∧ ∀ p ∈ st.callbacks, p.2.preq.id = p.1

/-- A call id is settled when it is no longer pending or has already used its
single retry; settled calls can never trigger another resend. -/
def Settled (st : BridgeState) (i : Int) : Prop :=
  ∀ o, alookup st.callbacks i = some o → o.retried = true

/-- Observable effect of issuing one call through the bridge channel. -/
inductive CallEvent
  | cbError (msg : String)
  | encoderWrite (f : SendFrame)
deriving DecidableEq

/-- Meta key for trace labels. -/
def LABELS_META : String := "avro.trace.labels"

/-- Meta key for the trace deadline. -/
def DEADLINE_META : String := "avro.trace.deadline"

/-- Header key carrying the discovery response protocols. -/
def PROTOCOLS_HEADER : String := "avro.protocols"

/-- NettyBridge._track (lines 263-293): fail the continuation synchronously
when the bridge is closed; serialize the trace labels (`labelsBuf` models
`mapOfJsonType.toBuffer(trace.labels)`, `none` meaning it raised, which fails
only this call); attach the serialized deadline when the trace has one; then
record the pending call.  Returns the new state, the meta map handed back to
the caller (`none` models the JS `undefined` of the early returns) and the
synchronous continuation events. -/
def track (labelsBuf : Option Bytes) (deadlineBuf : Option Bytes) (st : BridgeState)
    (preq : PacketReq) : BridgeState × Option (List (String × Bytes)) × List CallEvent :=
  if st.closed then (st, none, [.cbError "bridge closed"])
  else
    match labelsBuf with
    | none => (st, none, [.cbError "labels serialization failed"])
    | some lb =>
      let meta := [(LABELS_META, lb)] ++
        (match deadlineBuf with
         | some db => [(DEADLINE_META, db)]
         | none => [])
      let obj : CallObj := { meta := meta, preq := preq, retried := false }
      ({ st with callbacks := ainsert st.callbacks preq.id obj }, some meta, [])

/-- The channel handler of NettyBridge._channel (lines 238-243): it invokes
`_track` and then calls `_send` UNCONDITIONALLY with whatever `_track`
returned, including the `undefined` meta of the early-return paths. -/
def channelCall (labelsBuf deadlineBuf : Option Bytes) (st : BridgeState) (preq : PacketReq) :
    BridgeState × List CallEvent :=
  let r := track labelsBuf deadlineBuf st preq
  (r.1, r.2.2 ++ [.encoderWrite (sendObj r.1 preq r.2.1 false)])

/-! Server gateway (NettyGateway.accept, lines 339-521). -/

/-- Decoded handshake request record as consulted by the gateway. -/
structure HandshakeReqIn where
  clientHash : String
  clientProtocol : Option String
  serverHash : String
  meta : Option (List (String × Bytes))
deriving DecidableEq

/-- Handshake response record under construction by the gateway. -/
structure HandshakeResOut where
  matchKind : MatchKind
  serverProtocol : Option String
  serverHash : Option String
deriving DecidableEq

/-- Modelled from the spec: the collaborators consumed by the gateway — the
well-known discovery service hash, `new Service(JSON.parse(text))`, the
`dateTimeType` and `mapOfJsonType` codecs, trace liveness for a deadline,
the `systemErrorType` and `stringType` encoders, `JSON.stringify` of a
protocol array, and the router with its service list and matcher. -/
structure GatewayExternals where
  discoveryHash : String
  parseSvc : String → Option Service
  dateTimeFromBuffer : Bytes → Option Int
  deadlineActive : Int → Bool
  mapOfJsonFromBuffer : Bytes → Option (List (String × String))
  systemErrorToBuffer : String → Bytes
  stringToBuffer : String → Bytes
  protocolsJson : List Service → String
  routerServices : List Service
  routerMatch : Service → Option Service

/-- Outcome of the gateway data handler for one decoded frame group. -/
inductive GatewayOutcome
  | readableError (msg : String)
  | drop
  | respond (hres : HandshakeResOut) (pkt : NettyPacket (List (String × Bytes)))
  | crash (msg : String)
  | forward (hres : Option HandshakeResOut) (labels : List (String × String))
      (deadline : Option Int) (preq : PacketReq)
deriving DecidableEq

/-- NettyPacket.forSystemError (lines 689-693): mandatory discriminator bytes
1 then 0, followed by the schema-encoded system error; headers default to the
empty map. -/
def forSystemErrorPkt (systemErrorToBuffer : String → Bytes) (code : String) :
    NettyPacket (List (String × Bytes)) :=
  { headers := [], body := [1, 0] ++ systemErrorToBuffer code }

/-- JS property access `arr.size` on an array: arrays expose `length`, not
`size`, so the access yields `undefined` (here `none`). -/
def jsArraySize (_l : List Service) : Option Nat := none

/-- Tail of the gateway handshake branch (lines 434-443) plus the forward call
(lines 442-443): ask the router for the matching server service.  The source
guards with `if (!serverSvc)` and THEN reads `serverSvc.protocol` inside the
guard, so the no-match branch always raises a TypeError on an undefined
value; on a match the response handshake stays `match BOTH` untouched and the
request is forwarded. -/
def gatewayMatch (g : GatewayExternals) (clientSvc : Service)
    (clientServices : List (String × Service)) (id : Int)
    (packet : NettyPacket (List (String × Bytes))) (deadline : Option Int)
    (labels : List (String × String)) :
    Option Service × List (String × Service) × GatewayOutcome :=
  match g.routerMatch clientSvc with
  | none =>
    (some clientSvc, clientServices,
     .crash "TypeError: cannot read protocol of undefined")
  | some _ =>
    (some clientSvc, clientServices,
     .forward (some { matchKind := .BOTH, serverProtocol := none, serverHash := none })
       labels deadline
       { id := id, service := clientSvc, body := packet.body, headers := packet.headers })

/-- Discovery check and client-service resolution of the gateway (lines
390-433): a discovery ping is answered immediately with `match BOTH`, body
`0x00` and the protocols header; an unknown client hash without a client
protocol is answered `match NONE` with an UNKNOWN_CLIENT_PROTOCOL system
error — the single-service enrichment at lines 412-419 tests
`serverSvcs.size === 1` on an ARRAY, which compares `undefined` with 1 and is
always false (were it taken, reading `serverSvc` before its later `const`
declaration would raise a ReferenceError); an unknown hash with a protocol is
parsed (failure surfaces on the readable) and cached. -/
def gatewayResolve (g : GatewayExternals) (clientSvcPrev : Option Service)
    (clientServices : List (String × Service)) (hreq : HandshakeReqIn) (id : Int)
    (packet : NettyPacket (List (String × Bytes))) (deadline : Option Int)
    (labels : List (String × String)) :
    Option Service × List (String × Service) × GatewayOutcome :=
  if hreq.clientHash = g.discoveryHash then
    (clientSvcPrev, clientServices,
     .respond { matchKind := .BOTH, serverProtocol := none, serverHash := none }
       { headers := [(PROTOCOLS_HEADER, g.stringToBuffer (g.protocolsJson g.routerServices))]
         body := [0] })
  else
    match alookup clientServices hreq.clientHash with
    | some svc => gatewayMatch g svc clientServices id packet deadline labels
    | none =>
      match hreq.clientProtocol with
      | none =>
        if jsArraySize g.routerServices = some 1 then
          (none, clientServices,
           .crash "ReferenceError: cannot access serverSvc before initialization")
        else
          (none, clientServices,
           .respond { matchKind := .NONE, serverProtocol := none, serverHash := none }
             (forSystemErrorPkt g.systemErrorToBuffer "ERR_AVRO_UNKNOWN_CLIENT_PROTOCOL"))
      | some ptext =>
        match g.parseSvc ptext with
        | none => (none, clientServices, .readableError "bad client protocol")
        | some svc =>
          gatewayMatch g svc (ainsert clientServices hreq.clientHash svc) id packet deadline
            labels

/-- Trace-label extraction of the gateway (lines 378-389): a labels meta entry
that fails to decode surfaces on the readable; otherwise the labels are
merged into the trace. -/
def gatewayLabels (g : GatewayExternals) (clientSvcPrev : Option Service)
    (clientServices : List (String × Service)) (hreq : HandshakeReqIn) (id : Int)
    (packet : NettyPacket (List (String × Bytes))) (deadline : Option Int) :
    Option Service × List (String × Service) × GatewayOutcome :=
  match hreq.meta.bind (fun m => alookup m LABELS_META) with
  | some lbuf =>
    match g.mapOfJsonFromBuffer lbuf with
    | none => (clientSvcPrev, clientServices, .readableError "bad labels")
    | some labels => gatewayResolve g clientSvcPrev clientServices hreq id packet deadline labels
  | none => gatewayResolve g clientSvcPrev clientServices hreq id packet deadline []

/-- NettyGateway per-frame-group data handler (lines 352-464): a frame group
with no handshake and no previously seen client service is a protocol
violation; a handshake is processed for deadline (decode failure surfaces on
the readable; an already-inactive trace drops the request), labels, discovery
and client-service resolution; without a handshake the last-seen client
service is reused.  Returns the new last-seen client service, the updated
client-service cache, and the outcome. -/
def gatewayHandle (g : GatewayExternals) (clientSvcPrev : Option Service)
    (clientServices : List (String × Service)) (hreqOpt : Option HandshakeReqIn) (id : Int)
    (packet : NettyPacket (List (String × Bytes))) :
    Option Service × List (String × Service) × GatewayOutcome :=
  match hreqOpt with
  | none =>
    match clientSvcPrev with
    | none => (none, clientServices, .readableError "expected handshake")
    | some svc =>
      (some svc, clientServices,
       .forward none [] none
         { id := id, service := svc, body := packet.body, headers := packet.headers })
  | some hreq =>
    match hreq.meta.bind (fun m => alookup m DEADLINE_META) with
    | some dbuf =>
      match g.dateTimeFromBuffer dbuf with
      | none => (clientSvcPrev, clientServices, .readableError "bad deadline")
      | some deadline =>
        if g.deadlineActive deadline = false then (clientSvcPrev, clientServices, .drop)
        else gatewayLabels g clientSvcPrev clientServices hreq id packet (some deadline)
    | none => gatewayLabels g clientSvcPrev clientServices hreq id packet none

/-! NettyBridge constructor stream wiring (lines 106-158), for the implicit
claim about constructing a bridge over two distinct streams. -/

/-- Identifier bindings visible at line 152 of the source: the constructor
parameters and the module-level declarations.  The writable error handler
exists only as the instance field `_onWritableError` set at line 134; no
binding is named `onWritableError`. -/
def bridgeConstructorScope : List String :=
  ["readable", "writable",
   "Channel", "Packet", "Trace", "Router", "Service", "utils", "debug",
   "EventEmitter", "stream", "SystemError", "d",
   "discoveryService", "PROTOCOLS_HEADER", "DEADLINE_META", "LABELS_META",
   "nettyRouter", "NettyRouter", "NettyBridge", "NettyGateway",
   "NettyDecoder", "NettyEncoder", "NettyPacket", "intBuffer", "isStream"]

/-- NettyBridge constructor wiring (lines 143-159): the listener registrations
`(target, event, handler)` performed in order, or the JS error raised midway.
With distinct streams, line 152 evaluates the bare identifier
`onWritableError`, which resolves against the constructor scope. -/
def bridgeConstruct (distinctStreams : Bool) : Except String (List (String × String × String)) :=
  let encoderWiring := [("encoder", "error", "anonymous"),
                       ("writable", "finish", "this._onWritableFinish")]
  let writableWiring : Except String (List (String × String × String)) :=
    if distinctStreams then
      if bridgeConstructorScope.contains "onWritableError" then
        Except.ok [("writable", "error", "onWritableError")]
      else
        Except.error "ReferenceError: onWritableError is not defined"
    else Except.ok []
  match writableWiring with
  | Except.error e => Except.error e
  | Except.ok ws =>
    Except.ok (encoderWiring ++ ws ++
      [("readable", "error", "this._onReadableError"),
       ("readable", "end", "this._onReadableEnd"),
       ("decoder", "error", "anonymous"),
       ("decoder", "data", "anonymous")])

/-! Concrete instances used to witness the universally quantified theorems. -/

/-- A minimal lawful stand-in handshake codec: the one-byte tag 7. -/
def unitHandshakeCodec : Codec Unit where
  toBuffer := fun _ => [7]
  decode := fun buf =>
    match buf with
    | b :: _ => if b = 7 then some ((), 1) else none
    | [] => none

/-- A minimal lawful stand-in header-map codec: the one-byte tag 0 (the Avro
encoding of an empty map is a single zero byte). -/
def unitHeaderCodec : Codec Unit where
  toBuffer := fun _ => [0]
  decode := fun buf =>
    match buf with
    | b :: _ => if b = 0 then some ((), 1) else none
    | [] => none

/-- Concrete client service for bridge witnesses. -/
def svcClient : Service := { hash := "client-hash", protocol := "client-protocol" }

/-- Concrete pending request for bridge witnesses. -/
def preqW : PacketReq := { id := 1, service := svcClient, body := [], headers := [] }

/-- Concrete pending-call record for bridge witnesses. -/
def objW : CallObj := { meta := [], preq := preqW, retried := false }

/-- Concrete bridge state with one fresh pending call. -/
def stW : BridgeState :=
  { closed := false, serverServices := [], hashes := [], callbacks := [(1, objW)] }

/-- Concrete closed bridge state holding no pending calls. -/
def stClosed : BridgeState :=
  { closed := true, serverServices := [], hashes := [], callbacks := [] }

/-- Concrete NONE-match response without server handshake fields. -/
def respNone : RespObj :=
  { handshake := { matchKind := .NONE, serverHash := none, serverProtocol := none }
    id := 1
    packet := { headers := [], body := [] } }

/-- Concrete response carrying an unparseable server protocol. -/
def respBadProtocol : RespObj :=
  { handshake := { matchKind := .BOTH, serverHash := some "server-hash"
                   serverProtocol := some "not json" }
    id := 1
    packet := { headers := [], body := [] } }

/-- Concrete single service owned by the gateway router in the witnesses. -/
def svcServer : Service := { hash := "server-hash", protocol := "server-protocol" }

/-- Concrete gateway collaborators: one router service, no protocol parses,
every deadline live. -/
def gwExt : GatewayExternals :=
  { discoveryHash := "discovery-hash"
    parseSvc := fun _ => none
    dateTimeFromBuffer := fun _ => none
    deadlineActive := fun _ => true
    mapOfJsonFromBuffer := fun _ => none
    systemErrorToBuffer := fun _ => [9]
    stringToBuffer := fun _ => []
    protocolsJson := fun _ => ""
    routerServices := [svcServer]
    routerMatch := fun _ => none }

/-- Concrete handshake request with an unknown client hash and no client
protocol text. -/
def hreqUnknown : HandshakeReqIn :=
  { clientHash := "unknown-hash", clientProtocol := none, serverHash := "unknown-hash"
    meta := none }

/-- Concrete handshake request whose client hash the gateway already knows. -/
def hreqKnown : HandshakeReqIn :=
  { clientHash := "client-hash", clientProtocol := none, serverHash := "client-hash"
    meta := none }

/-- Concrete empty inbound packet for gateway witnesses. -/
def pktEmpty : NettyPacket (List (String × Bytes)) := { headers := [], body := [] }

/-! Byte-level lemmas. -/

theorem writeInt32BE_length (n : Int) : (writeInt32BE n).length = 4 := rfl

theorem readInt32BE_writeInt32BE (n : Int) (rest : Bytes)
    (h1 : -2147483648 ≤ n) (h2 : n < 2147483648) :
    readInt32BE (writeInt32BE n ++ rest) = n := by
  have h0 : (0 : Int) ≤ n % 4294967296 := Int.emod_nonneg n (by norm_num)
  have h3 : n % 4294967296 < 4294967296 := Int.emod_lt_of_pos n (by norm_num)
  have h4 : n % 4294967296 = n ∨ n % 4294967296 = n + 4294967296 := by omega
  simp only [writeInt32BE, readInt32BE, List.cons_append, List.nil_append]
  split <;> omega

theorem drop4_writeInt32BE (n : Int) (rest : Bytes) :
    (writeInt32BE n ++ rest).drop 4 = rest := rfl

theorem drop8_writeInt32BE (a b : Int) (rest : Bytes) :
    (writeInt32BE a ++ (writeInt32BE b ++ rest)).drop 8 = rest := rfl

theorem length_writeInt32BE_append (n : Int) (rest : Bytes) :
    (writeInt32BE n ++ rest).length = 4 + rest.length := by
  simp [writeInt32BE]
  omega

theorem jsSlice_append_exact (a b : Bytes) :
    jsSlice (a ++ b) ((a.length : Nat) : Int) (((a ++ b).length : Nat) : Int) = b := by
  simp only [jsSlice]
  have hlen : (a ++ b).length = a.length + b.length := List.length_append a b
  have h1 : ¬ ((a.length : Int) < 0) := by omega
  have h2 : ¬ (((a ++ b).length : Int) < 0) := by omega
  rw [if_neg h1, if_neg h2]
  have h3 : min ((a.length : Nat) : Int) (((a ++ b).length : Nat) : Int) = (a.length : Int) := by
    rw [min_eq_left]; omega
  have h4 : min (((a ++ b).length : Nat) : Int) (((a ++ b).length : Nat) : Int)
      = ((a ++ b).length : Int) := min_self _
  rw [h3, h4]
  have h5 : ((a.length : Int)).toNat = a.length := Int.toNat_natCast _
  have h6 : (((a ++ b).length : Int) - (a.length : Int)).toNat = b.length := by omega
  rw [h5, h6, List.drop_left, List.take_length]

theorem jsSlice_frame (w f rest : Bytes) (hw : w.length = 4) :
    jsSlice (w ++ (f ++ rest)) 4 ((f.length : Int) + 4) = f := by
  simp only [jsSlice]
  have hlen : (w ++ (f ++ rest)).length = 4 + f.length + rest.length := by
    simp [List.length_append, hw]; omega
  have h1 : ¬ ((4 : Int) < 0) := by omega
  have h2 : ¬ ((f.length : Int) + 4 < 0) := by omega
  rw [if_neg h1, if_neg h2]
  have h3 : min (4 : Int) ((w ++ (f ++ rest)).length : Int) = 4 := by
    rw [min_eq_left]; omega
  have h4 : min ((f.length : Int) + 4) ((w ++ (f ++ rest)).length : Int)
      = (f.length : Int) + 4 := by
    rw [min_eq_left]; omega
  rw [h3, h4]
  have h5 : ((4 : Int)).toNat = 4 := rfl
  have h6 : ((f.length : Int) + 4 - 4).toNat = f.length := by omega
  rw [h5, h6, List.drop_left' hw, List.take_left]

theorem jsSlice_after_frame (w f rest : Bytes) (hw : w.length = 4) :
    jsSlice (w ++ (f ++ rest)) ((f.length : Int) + 4) (((w ++ (f ++ rest)).length : Nat) : Int)
      = rest := by
  simp only [jsSlice]
  have hlen : (w ++ (f ++ rest)).length = 4 + f.length + rest.length := by
    simp [List.length_append, hw]; omega
  have h1 : ¬ ((f.length : Int) + 4 < 0) := by omega
  have h2 : ¬ (((w ++ (f ++ rest)).length : Int) < 0) := by omega
  rw [if_neg h1, if_neg h2]
  have h3 : min ((f.length : Int) + 4) ((w ++ (f ++ rest)).length : Int)
      = (f.length : Int) + 4 := by
    rw [min_eq_left]; omega
  have h4 : min (((w ++ (f ++ rest)).length : Nat) : Int)
      (((w ++ (f ++ rest)).length : Nat) : Int) = ((w ++ (f ++ rest)).length : Int) :=
    min_self _
  rw [h3, h4]
  have h6 : (((w ++ (f ++ rest)).length : Int) - ((f.length : Int) + 4)).toNat
      = rest.length := by omega
  have h5 : (((f.length : Int) + 4)).toNat = w.length + f.length := by omega
  rw [h5, h6]
  have h7 : (w ++ (f ++ rest)) = (w ++ f) ++ rest := by rw [List.append_assoc]
  have h8 : w.length + f.length = (w ++ f).length := (List.length_append w f).symm
  rw [h7, h8, List.drop_left]
  exact List.take_length rest

/-! Payload and decode lemmas. -/

theorem unitHandshakeCodec_lawful : unitHandshakeCodec.Lawful := by
  intro v rest
  simp [unitHandshakeCodec, Codec.Lawful]

theorem unitHeaderCodec_lawful : unitHeaderCodec.Lawful := by
  intro v rest
  simp [unitHeaderCodec, Codec.Lawful]

theorem forPayload_toPayload {H : Type} (mc : Codec H) (hlm : mc.Lawful)
    (pkt : NettyPacket H) : forPayload mc (toPayload mc pkt) = some pkt := by
  unfold forPayload toPayload
  rw [hlm pkt.headers pkt.body]
  dsimp only
  rw [jsSlice_append_exact (mc.toBuffer pkt.headers) pkt.body]

theorem decodeAttempt_with_handshake {α H : Type} (hc : Codec α) (mc : Codec H)
    (hlc : hc.Lawful) (hlm : mc.Lawful) (h : α) (pkt : NettyPacket H) :
    decodeAttempt hc mc true (hc.toBuffer h ++ toPayload mc pkt) = some (some h, pkt) := by
  unfold decodeAttempt
  rw [if_pos rfl, hlc h (toPayload mc pkt)]
  dsimp only
  rw [jsSlice_append_exact (hc.toBuffer h) (toPayload mc pkt)]
  rw [forPayload_toPayload mc hlm pkt]

theorem nettyDecode_with_handshake {α H : Type} (hc : Codec α) (mc : Codec H)
    (hlc : hc.Lawful) (hlm : mc.Lawful) (h : α) (pkt : NettyPacket H) (id : Int) :
    nettyDecode hc mc true id (hc.toBuffer h ++ toPayload mc pkt) =
      some ({ handshake := some h, id := id, packet := pkt }, true) := by
  unfold nettyDecode
  rw [decodeAttempt_with_handshake hc mc hlc hlm h pkt]
  rfl

/-! Frame-loop lemmas. -/

theorem readFrames_stop (fuel : Nat) (fc : Int) (buf : Bytes) (bufs : List Bytes)
    (h : ¬ (fc ≠ 0 ∧ 4 ≤ buf.length ∧ (buf.length : Int) ≥ readInt32BE buf + 4)) :
    readFrames fuel fc buf bufs = (fc, buf, bufs) := by
  cases fuel with
  | zero => rfl
  | succ fuel => rw [readFrames, if_neg h]

theorem readFrames_step (fuel : Nat) (fc : Int) (buf : Bytes) (bufs : List Bytes)
    (h : fc ≠ 0 ∧ 4 ≤ buf.length ∧ (buf.length : Int) ≥ readInt32BE buf + 4) :
    readFrames (fuel + 1) fc buf bufs =
      readFrames fuel (fc - 1)
        (jsSlice buf (readInt32BE buf + 4) (buf.length : Int))
        (bufs ++ [jsSlice buf 4 (readInt32BE buf + 4)]) := by
  rw [readFrames, if_pos h]

theorem readFrames_two (f1 f2 extra : Bytes) (fuel : Nat)
    (h1 : (f1.length : Int) < 2147483648) (h2 : (f2.length : Int) < 2147483648) :
    readFrames (fuel + 2) 2
      (writeInt32BE (f1.length : Int) ++ (f1 ++ (writeInt32BE (f2.length : Int) ++ (f2 ++ extra))))
      []
      = (0, extra, [f1, f2]) := by
  set w1 := writeInt32BE (f1.length : Int) with hw1
  set w2 := writeInt32BE (f2.length : Int) with hw2
  set buf1 := w1 ++ (f1 ++ (w2 ++ (f2 ++ extra))) with hbuf1
  have hl1 : w1.length = 4 := writeInt32BE_length _
  have hl2 : w2.length = 4 := writeInt32BE_length _
  have hr1 : readInt32BE buf1 = (f1.length : Int) :=
    readInt32BE_writeInt32BE (f1.length : Int) _ (by omega) h1
  have hlen1 : buf1.length = 8 + f1.length + f2.length + extra.length := by
    simp only [hbuf1, List.length_append, hl1, hl2]; omega
  have hc1 : (2 : Int) ≠ 0 ∧ 4 ≤ buf1.length ∧ (buf1.length : Int) ≥ readInt32BE buf1 + 4 := by
    refine ⟨by omega, by omega, ?_⟩
    rw [hr1]; omega
  rw [readFrames_step _ _ _ _ hc1, hr1]
  rw [jsSlice_frame w1 f1 _ hl1, jsSlice_after_frame w1 f1 _ hl1]
  set buf2 := w2 ++ (f2 ++ extra) with hbuf2
  have hr2 : readInt32BE buf2 = (f2.length : Int) :=
    readInt32BE_writeInt32BE (f2.length : Int) _ (by omega) h2
  have hlen2 : buf2.length = 4 + f2.length + extra.length := by
    simp only [hbuf2, List.length_append, hl2]; omega
  have hc2 : (2 : Int) - 1 ≠ 0 ∧ 4 ≤ buf2.length ∧
      (buf2.length : Int) ≥ readInt32BE buf2 + 4 := by
    refine ⟨by omega, by omega, ?_⟩
    rw [hr2]; omega
  rw [readFrames_step _ _ _ _ hc2, hr2]
  rw [jsSlice_frame w2 f2 _ hl2, jsSlice_after_frame w2 f2 _ hl2]
  rw [readFrames_stop _ _ _ _ (by simp)]
  norm_num

theorem transformGo_encoded {α H : Type} (hc : Codec α) (mc : Codec H)
    (hlc : hc.Lawful) (hlm : mc.Lawful) (h : α) (pkt : NettyPacket H) (id : Int)
    (extra : Bytes) (m : Nat)
    (hid1 : -2147483648 ≤ id) (hid2 : id < 2147483648)
    (hhs : ((hc.toBuffer h).length : Int) < 2147483648)
    (hpl : ((toPayload mc pkt).length : Int) < 2147483648)
    (hextra : extra.length < 8) :
    transformGo hc mc (m + 2) true none 0 []
      (writeInt32BE id ++ (writeInt32BE 2 ++
        (writeInt32BE ((hc.toBuffer h).length : Int) ++ (hc.toBuffer h ++
          (writeInt32BE ((toPayload mc pkt).length : Int) ++ (toPayload mc pkt ++ extra)))))) []
      = some ([{ handshake := some h, id := id, packet := pkt }],
          { expectHandshake := true, id := none, frameCount := 0, buf := extra, bufs := [] }) := by
  set hb := hc.toBuffer h with hhb
  set pb := toPayload mc pkt with hpb
  set rest2 := writeInt32BE (hb.length : Int) ++ (hb ++ (writeInt32BE (pb.length : Int) ++
    (pb ++ extra))) with hrest2
  set out := writeInt32BE id ++ (writeInt32BE 2 ++ rest2) with hout2
  have hlr2 : rest2.length = 8 + hb.length + pb.length + extra.length := by
    simp only [hrest2, List.length_append, writeInt32BE_length]; omega
  have hlout : out.length = 16 + hb.length + pb.length + extra.length := by
    simp only [hout2, List.length_append, writeInt32BE_length]; omega
  have hr0 : readInt32BE out = id := readInt32BE_writeInt32BE id _ hid1 hid2
  have hd4 : out.drop 4 = writeInt32BE 2 ++ rest2 := drop4_writeInt32BE id _
  have hr4 : readInt32BE (out.drop 4) = 2 := by
    rw [hd4]
    exact readInt32BE_writeInt32BE 2 rest2 (by omega) (by omega)
  have hd8 : out.drop 8 = rest2 := drop8_writeInt32BE id 2 rest2
  rw [transformGo]
  rw [transformHeader]
  rw [if_neg (by omega : ¬ out.length < 8)]
  rw [hr0, hr4, hd8]
  dsimp only
  obtain ⟨k, hk⟩ : ∃ k, rest2.length + 1 = k + 2 := ⟨rest2.length - 1, by omega⟩
  rw [hk, hrest2, readFrames_two hb pb extra k hhs hpl]
  dsimp only
  rw [if_neg (by omega : ¬ (0 : Int) ≠ 0)]
  have hfl : List.flatten [hb, pb] = hb ++ pb := by simp
  rw [hfl, hhb, hpb, nettyDecode_with_handshake hc mc hlc hlm h pkt id]
  dsimp only
  rw [transformGo]
  rw [transformHeader]
  rw [if_pos hextra]
  rfl

theorem writeInt32BEChecked_eq (n : Int) (h1 : -2147483648 ≤ n) (h2 : n < 2147483648) :
    writeInt32BEChecked n = some (writeInt32BE n) := by
  unfold writeInt32BEChecked
  rw [if_pos ⟨h1, h2⟩]

theorem nettyEncode_with_handshake {α H : Type} (hc : Codec α) (mc : Codec H)
    (h : α) (pkt : NettyPacket H) (id : Int)
    (hid1 : -2147483648 ≤ id) (hid2 : id < 2147483648)
    (hhs : ((hc.toBuffer h).length : Int) < 2147483648)
    (hpl : ((toPayload mc pkt).length : Int) < 2147483648) :
    nettyEncode hc mc { handshake := some h, id := id, packet := pkt } =
      some (writeInt32BE id ++ (writeInt32BE 2 ++
        (writeInt32BE ((hc.toBuffer h).length : Int) ++ (hc.toBuffer h ++
          (writeInt32BE ((toPayload mc pkt).length : Int) ++ toPayload mc pkt))))) := by
  unfold nettyEncode nettyEncodeFrames
  dsimp only
  rw [writeInt32BEChecked_eq id hid1 hid2]
  rw [show ((List.length [hc.toBuffer h, toPayload mc pkt] : Nat) : Int) = 2 by simp]
  rw [writeInt32BEChecked_eq 2 (by omega) (by omega)]
  rw [encodeFrameList, encodeFrameList, encodeFrameList]
  rw [writeInt32BEChecked_eq ((hc.toBuffer h).length : Int) (by omega) hhs]
  rw [writeInt32BEChecked_eq ((toPayload mc pkt).length : Int) (by omega) hpl]
  simp [List.append_assoc]

theorem decoderTransform_encoded {α H : Type} (hc : Codec α) (mc : Codec H)
    (hlc : hc.Lawful) (hlm : mc.Lawful) (h : α) (pkt : NettyPacket H) (id : Int)
    (out extra : Bytes)
    (hid1 : -2147483648 ≤ id) (hid2 : id < 2147483648)
    (hhs : ((hc.toBuffer h).length : Int) < 2147483648)
    (hpl : ((toPayload mc pkt).length : Int) < 2147483648)
    (hout : nettyEncode hc mc { handshake := some h, id := id, packet := pkt } = some out)
    (hextra : extra.length < 8) :
    decoderTransform hc mc {} (out ++ extra) =
      some ([{ handshake := some h, id := id, packet := pkt }],
        { expectHandshake := true, id := none, frameCount := 0, buf := extra, bufs := [] }) := by
  rw [nettyEncode_with_handshake hc mc h pkt id hid1 hid2 hhs hpl] at hout
  have hout2 := Option.some.inj hout
  subst hout2
  simp only [decoderTransform]
  rw [show ([] : Bytes) ++ ((writeInt32BE id ++ (writeInt32BE 2 ++
        (writeInt32BE ((hc.toBuffer h).length : Int) ++ (hc.toBuffer h ++
          (writeInt32BE ((toPayload mc pkt).length : Int) ++ toPayload mc pkt))))) ++ extra) =
      writeInt32BE id ++ (writeInt32BE 2 ++
        (writeInt32BE ((hc.toBuffer h).length : Int) ++ (hc.toBuffer h ++
          (writeInt32BE ((toPayload mc pkt).length : Int) ++ (toPayload mc pkt ++ extra)))))
    by simp [List.append_assoc]]
  exact transformGo_encoded hc mc hlc hlm h pkt id extra _ hid1 hid2 hhs hpl hextra

/-- C1: for every frame-group object `(id, handshake, packet)` with a
well-formed handshake and packet (lawful handshake and header-map codecs, id
in signed 32-bit range, frame lengths representable), feeding the bytes
produced by the NettyEncoder for that object into a fresh NettyDecoder
configured with the same handshake type yields exactly one emitted object
equal to the original — same id, same handshake, same packet headers and
body — and leaves the decoder on a clean frame-group boundary. -/
theorem C1_encode_decode_identity {α H : Type} (hc : Codec α) (mc : Codec H)
    (hlc : hc.Lawful) (hlm : mc.Lawful) (h : α) (pkt : NettyPacket H) (id : Int)
    (out : Bytes)
    (hid1 : -2147483648 ≤ id) (hid2 : id < 2147483648)
    (hhs : ((hc.toBuffer h).length : Int) < 2147483648)
    (hpl : ((toPayload mc pkt).length : Int) < 2147483648)
    (hout : nettyEncode hc mc { handshake := some h, id := id, packet := pkt } = some out) :
    decoderTransform hc mc {} out =
      some ([{ handshake := some h, id := id, packet := pkt }],
        { expectHandshake := true, id := none, frameCount := 0, buf := [], bufs := [] }) := by
  have hmain := decoderTransform_encoded hc mc hlc hlm h pkt id out [] hid1 hid2 hhs hpl hout
    (by norm_num)
  rw [List.append_nil] at hmain
  exact hmain

theorem C1_encode_decode_identity_witness :
    decoderTransform unitHandshakeCodec unitHeaderCodec {}
      [0, 0, 0, 42, 0, 0, 0, 2, 0, 0, 0, 1, 7, 0, 0, 0, 3, 0, 5, 6] =
      some ([{ handshake := some (), id := 42, packet := { headers := (), body := [5, 6] } }],
        { expectHandshake := true, id := none, frameCount := 0, buf := [], bufs := [] }) :=
  C1_encode_decode_identity unitHandshakeCodec unitHeaderCodec
    unitHandshakeCodec_lawful unitHeaderCodec_lawful () { headers := (), body := [5, 6] } 42
    [0, 0, 0, 42, 0, 0, 0, 2, 0, 0, 0, 1, 7, 0, 0, 0, 3, 0, 5, 6]
    (by decide) (by decide) (by decide) (by decide) (by decide)

/-- C9: a decoder state holding residual buffered bytes (a partial frame-group
header in `buf` or buffered partial frames in `bufs`) fails at end-of-input
with a trailing-data error whose attached bytes are exactly the buffered
leftover (pending bytes then buffered frames), while a state on a clean
frame-group boundary produces no error; end to end, an encoded frame group
followed by stray bytes decodes to the one original object and then flushes
the error carrying exactly the stray bytes, and with no stray bytes the flush
is silent. -/
theorem C9_trailing_data {α H : Type} (hc : Codec α) (mc : Codec H)
    (hlc : hc.Lawful) (hlm : mc.Lawful) (h : α) (pkt : NettyPacket H) (id : Int)
    (out stray : Bytes) (st : DecoderState α H)
    (hid1 : -2147483648 ≤ id) (hid2 : id < 2147483648)
    (hhs : ((hc.toBuffer h).length : Int) < 2147483648)
    (hpl : ((toPayload mc pkt).length : Int) < 2147483648)
    (hout : nettyEncode hc mc { handshake := some h, id := id, packet := pkt } = some out)
    (hstray : stray.length < 8) :
    ((st.buf = [] ∧ st.bufs = []) → decoderFlush st = none) ∧
    (¬ (st.buf = [] ∧ st.bufs = []) →
      decoderFlush st = some ((st.buf :: st.bufs).flatten)) ∧
    decoderTransform hc mc {} (out ++ stray) =
      some ([{ handshake := some h, id := id, packet := pkt }],
        { expectHandshake := true, id := none, frameCount := 0, buf := stray, bufs := [] }) ∧
    decoderFlush
        ({ expectHandshake := true, id := none, frameCount := 0, buf := stray, bufs := [] } :
          DecoderState α H) =
      (if stray = [] then none else some stray) := by
  refine ⟨?_, ?_, ?_, ?_⟩
  · intro hclean
    unfold decoderFlush
    rw [if_neg]
    simp [hclean.1, hclean.2]
  · intro hdirty
    unfold decoderFlush
    rw [if_pos]
    rcases Decidable.not_and_iff_or_not.mp hdirty with hb | hbs
    · exact Or.inl (by simpa using hb)
    · exact Or.inr (by simpa using hbs)
  · exact decoderTransform_encoded hc mc hlc hlm h pkt id out stray hid1 hid2 hhs hpl hout
      hstray
  · by_cases hs : stray = []
    · subst hs
      unfold decoderFlush
      simp
    · unfold decoderFlush
      rw [if_pos]
      · simp [hs]
      · refine Or.inl (fun h0 => hs ?_)
        exact List.eq_nil_of_length_eq_zero h0

theorem C9_trailing_data_witness :
    (((⟨true, none, 0, [9, 9], []⟩ : DecoderState Unit Unit).buf = [] ∧
        (⟨true, none, 0, [9, 9], []⟩ : DecoderState Unit Unit).bufs = []) →
      decoderFlush (⟨true, none, 0, [9, 9], []⟩ : DecoderState Unit Unit) = none) ∧
    (¬ ((⟨true, none, 0, [9, 9], []⟩ : DecoderState Unit Unit).buf = [] ∧
        (⟨true, none, 0, [9, 9], []⟩ : DecoderState Unit Unit).bufs = []) →
      decoderFlush (⟨true, none, 0, [9, 9], []⟩ : DecoderState Unit Unit) =
        some ((((⟨true, none, 0, [9, 9], []⟩ : DecoderState Unit Unit)).buf ::
          ((⟨true, none, 0, [9, 9], []⟩ : DecoderState Unit Unit)).bufs).flatten)) ∧
    decoderTransform unitHandshakeCodec unitHeaderCodec {}
      ([0, 0, 0, 3, 0, 0, 0, 2, 0, 0, 0, 1, 7, 0, 0, 0, 2, 0, 5] ++ [9, 9, 9]) =
      some ([{ handshake := some (), id := 3, packet := { headers := (), body := [5] } }],
        { expectHandshake := true, id := none, frameCount := 0, buf := [9, 9, 9], bufs := [] }) ∧
    decoderFlush
        ({ expectHandshake := true, id := none, frameCount := 0, buf := [9, 9, 9], bufs := [] } :
          DecoderState Unit Unit) =
      (if ([9, 9, 9] : Bytes) = [] then none else some [9, 9, 9]) :=
  C9_trailing_data unitHandshakeCodec unitHeaderCodec
    unitHandshakeCodec_lawful unitHeaderCodec_lawful () { headers := (), body := [5] } 3
    [0, 0, 0, 3, 0, 0, 0, 2, 0, 0, 0, 1, 7, 0, 0, 0, 2, 0, 5] [9, 9, 9]
    (⟨true, none, 0, [9, 9], []⟩ : DecoderState Unit Unit)
    (by decide) (by decide) (by decide) (by decide) (by decide) (by decide)

/-- C2 (code bug): the claim and the spec say a failed expecting-handshake
decode is retried in no-handshake mode; at line 589 the code calls
`decode(this._expectHandshake)` again, retrying the SAME mode, so a frame
group whose payload is valid only without a handshake (here the one-byte
empty header map) makes the decoder error out instead of decoding, while the
spec-modelled retry decodes it with no handshake and downgrades the flag. -/
theorem C2_retry_same_mode_code_bug :
    nettyDecode unitHandshakeCodec unitHeaderCodec true 0 [0] = none ∧
    nettyDecodeSpec unitHandshakeCodec unitHeaderCodec true 0 [0] =
      some ({ handshake := none, id := 0, packet := { headers := (), body := [] } }, false) :=
  ⟨rfl, rfl⟩

theorem decodeAttempt_expect_isSome {α H : Type} (hc : Codec α) (mc : Codec H)
    (buf : Bytes) (hv : Option α) (p : NettyPacket H)
    (hda : decodeAttempt hc mc true buf = some (hv, p)) : hv.isSome = true := by
  unfold decodeAttempt at hda
  rw [if_pos rfl] at hda
  cases hd : hc.decode buf with
  | none =>
    rw [hd] at hda
    exact absurd hda (by simp)
  | some r =>
    obtain ⟨hv0, off⟩ := r
    rw [hd] at hda
    dsimp only at hda
    cases hp : forPayload mc (jsSlice buf (off : Int) (buf.length : Int)) with
    | none =>
      rw [hp] at hda
      exact absurd hda (by simp)
    | some p0 =>
      rw [hp] at hda
      have := (Option.some.inj hda)
      have hhv : hv = some hv0 := (congrArg Prod.fst this).symm
      rw [hhv]
      rfl

/-- C8 (code bug): the claim describes the sticky downgrade — the flag starts
true and is set to false the first time a frame group decodes successfully
without a handshake; because the retry at line 589 repeats the expecting
mode, every decode that succeeds while the flag is true carries a handshake
and returns the flag still true, so the downgrade can never fire and the flag
never leaves its initial true state. -/
theorem C8_flag_never_flips {α H : Type} (hc : Codec α) (mc : Codec H) (id : Int)
    (buf : Bytes) (obj : FrameObj α H) (e2 : Bool)
    (hdec : nettyDecode hc mc true id buf = some (obj, e2)) :
    obj.handshake.isSome = true ∧ e2 = true := by
  unfold nettyDecode at hdec
  cases hA : decodeAttempt hc mc true buf with
  | none =>
    rw [hA] at hdec
    exact absurd hdec (by simp)
  | some r =>
    obtain ⟨hv, p⟩ := r
    have hsome : hv.isSome = true := decodeAttempt_expect_isSome hc mc buf hv p hA
    rw [hA] at hdec
    simp only [Option.some.injEq] at hdec
    obtain ⟨hobj, he2⟩ := Prod.mk.injEq .. ▸ hdec
    constructor
    · rw [← hobj]
      exact hsome
    · rw [← he2]
      cases hv with
      | none => simp at hsome
      | some v => rfl

theorem C8_flag_never_flips_witness :
    ({ handshake := some (), id := 0,
        packet := { headers := (), body := [] } } : FrameObj Unit Unit).handshake.isSome = true ∧
      true = true :=
  C8_flag_never_flips unitHandshakeCodec unitHeaderCodec 0 [7, 0]
    { handshake := some (), id := 0, packet := { headers := (), body := [] } } true (by decide)

/-! Association-list lemmas. -/

theorem alookup_mem {κ ν : Type} [DecidableEq κ] (l : List (κ × ν)) (k : κ) (v : ν)
    (h : alookup l k = some v) : (k, v) ∈ l := by
  induction l with
  | nil => simp [alookup] at h
  | cons p rest ih =>
    obtain ⟨k0, v0⟩ := p
    rw [alookup] at h
    by_cases hk : k = k0
    · rw [if_pos hk] at h
      subst hk
      rw [Option.some.inj h]
      exact List.mem_cons_self _ _
    · rw [if_neg hk] at h
      exact List.mem_cons_of_mem _ (ih h)

theorem alookup_ainsert_self {κ ν : Type} [DecidableEq κ] (l : List (κ × ν)) (k : κ) (v : ν) :
    alookup (ainsert l k v) k = some v := by
  induction l with
  | nil => simp [ainsert, alookup]
  | cons p rest ih =>
    obtain ⟨k0, v0⟩ := p
    rw [ainsert]
    by_cases hk : k = k0
    · rw [if_pos hk, alookup, if_pos rfl]
    · rw [if_neg hk, alookup, if_neg hk]
      exact ih

theorem alookup_ainsert_ne {κ ν : Type} [DecidableEq κ] (l : List (κ × ν)) (k k' : κ) (v : ν)
    (h : k' ≠ k) : alookup (ainsert l k v) k' = alookup l k' := by
  induction l with
  | nil => simp [ainsert, alookup, h]
  | cons p rest ih =>
    obtain ⟨k0, v0⟩ := p
    rw [ainsert]
    by_cases hk : k = k0
    · subst hk
      rw [if_pos rfl, alookup, alookup, if_neg h, if_neg h]
    · rw [if_neg hk, alookup, alookup]
      by_cases hk2 : k' = k0
      · rw [if_pos hk2, if_pos hk2]
      · rw [if_neg hk2, if_neg hk2]
        exact ih

theorem mem_ainsert {κ ν : Type} [DecidableEq κ] (l : List (κ × ν)) (k : κ) (v : ν)
    (p : κ × ν) (h : p ∈ ainsert l k v) : p = (k, v) ∨ p ∈ l := by
  induction l with
  | nil => simpa [ainsert] using h
  | cons q rest ih =>
    obtain ⟨k0, v0⟩ := q
    rw [ainsert] at h
    by_cases hk : k = k0
    · rw [if_pos hk] at h
      rcases List.mem_cons.mp h with h1 | h1
      · exact Or.inl h1
      · exact Or.inr (List.mem_cons_of_mem _ h1)
    · rw [if_neg hk] at h
      rcases List.mem_cons.mp h with h1 | h1
      · exact Or.inr (h1 ▸ List.mem_cons_self _ _)
      · rcases ih h1 with h2 | h2
        · exact Or.inl h2
        · exact Or.inr (List.mem_cons_of_mem _ h2)

theorem mem_keys_ainsert {κ ν : Type} [DecidableEq κ] (l : List (κ × ν)) (k : κ) (v : ν)
    (a : κ) (h : a ∈ (ainsert l k v).map Prod.fst) : a ∈ l.map Prod.fst ∨ a = k := by
  rcases List.mem_map.mp h with ⟨p, hp, hpa⟩
  rcases mem_ainsert l k v p hp with h1 | h1
  · exact Or.inr (by rw [← hpa, h1])
  · exact Or.inl (List.mem_map.mpr ⟨p, h1, hpa⟩)

theorem nodup_keys_ainsert {κ ν : Type} [DecidableEq κ] (l : List (κ × ν)) (k : κ) (v : ν)
    (h : (l.map Prod.fst).Nodup) : ((ainsert l k v).map Prod.fst).Nodup := by
  induction l with
  | nil => simp [ainsert]
  | cons p rest ih =>
    obtain ⟨k0, v0⟩ := p
    rw [ainsert]
    by_cases hk : k = k0
    · subst hk
      rw [if_pos rfl]
      rw [List.map_cons, List.nodup_cons] at h ⊢
      exact ⟨h.1, h.2⟩
    · rw [if_neg hk]
      rw [List.map_cons, List.nodup_cons] at h ⊢
      refine ⟨?_, ih h.2⟩
      intro hc
      rcases mem_keys_ainsert rest k v k0 hc with h1 | h1
      · exact h.1 h1
      · exact hk h1.symm

theorem aerase_sublist {κ ν : Type} [DecidableEq κ] (l : List (κ × ν)) (k : κ) :
    (aerase l k).Sublist l := by
  induction l with
  | nil => simp [aerase]
  | cons p rest ih =>
    obtain ⟨k0, v0⟩ := p
    rw [aerase]
    by_cases hk : k = k0
    · rw [if_pos hk]
      exact List.sublist_cons_self _ _
    · rw [if_neg hk]
      exact List.Sublist.cons₂ _ ih

theorem nodup_keys_aerase {κ ν : Type} [DecidableEq κ] (l : List (κ × ν)) (k : κ)
    (h : (l.map Prod.fst).Nodup) : ((aerase l k).map Prod.fst).Nodup :=
  ((aerase_sublist l k).map Prod.fst).nodup h

theorem alookup_aerase_self {κ ν : Type} [DecidableEq κ] (l : List (κ × ν)) (k : κ)
    (h : (l.map Prod.fst).Nodup) : alookup (aerase l k) k = none := by
  induction l with
  | nil => simp [aerase, alookup]
  | cons p rest ih =>
    obtain ⟨k0, v0⟩ := p
    rw [List.map_cons, List.nodup_cons] at h
    rw [aerase]
    by_cases hk : k = k0
    · rw [if_pos hk]
      subst hk
      cases ha : alookup rest k with
      | none => rfl
      | some v1 =>
        exact absurd (List.mem_map.mpr ⟨(k, v1), alookup_mem rest k v1 ha, rfl⟩) h.1
    · rw [if_neg hk, alookup, if_neg hk]
      exact ih h.2

theorem alookup_aerase_ne {κ ν : Type} [DecidableEq κ] (l : List (κ × ν)) (k k' : κ)
    (h : k' ≠ k) : alookup (aerase l k) k' = alookup l k' := by
  induction l with
  | nil => simp [aerase]
  | cons p rest ih =>
    obtain ⟨k0, v0⟩ := p
    rw [aerase]
    by_cases hk : k = k0
    · subst hk
      rw [if_pos rfl, alookup, if_neg h]
    · rw [if_neg hk, alookup, alookup]
      by_cases hk2 : k' = k0
      · rw [if_pos hk2, if_pos hk2]
      · rw [if_neg hk2, if_neg hk2]
        exact ih

theorem mem_aerase {κ ν : Type} [DecidableEq κ] (l : List (κ × ν)) (k : κ) (p : κ × ν)
    (h : p ∈ aerase l k) : p ∈ l :=
  (aerase_sublist l k).mem h

/-! Bridge retry machinery. -/

theorem finishData_shape (st : BridgeState) (r : RespObj) (obj : CallObj)
    (ssvc : Option Service) :
    (r.handshake.matchKind = MatchKind.NONE ∧ obj.retried = false ∧
      finishData st r obj ssvc =
        ({ st with callbacks := ainsert st.callbacks r.id { obj with retried := true } },
         .resend (sendObj
           { st with callbacks := ainsert st.callbacks r.id { obj with retried := true } }
           obj.preq obj.meta true))) ∨
    (finishData st r obj ssvc =
      ({ st with callbacks := aerase st.callbacks r.id },
       .deliver r.id ssvc r.packet)) := by
  unfold finishData
  by_cases hc : r.handshake.matchKind = MatchKind.NONE ∧ obj.retried = false
  · rw [if_pos hc]
    exact Or.inl ⟨hc.1, hc.2, rfl⟩
  · rw [if_neg hc]
    exact Or.inr rfl

theorem handleData_shape (ps : String → Option Service) (st : BridgeState) (r : RespObj) :
    ((handleData ps st r).1.callbacks = st.callbacks ∧
      ∀ f, (handleData ps st r).2 ≠ BridgeAction.resend f) ∨
    (∃ o, alookup st.callbacks r.id = some o ∧ o.retried = false ∧
      (handleData ps st r).1.callbacks = ainsert st.callbacks r.id { o with retried := true } ∧
      ∃ f, (handleData ps st r).2 = BridgeAction.resend f ∧ f.id = o.preq.id) ∨
    ((handleData ps st r).1.callbacks = aerase st.callbacks r.id ∧
      ∀ f, (handleData ps st r).2 ≠ BridgeAction.resend f) := by
  cases hlo : alookup st.callbacks r.id with
  | none =>
    have heq : handleData ps st r = (st, .ignore) := by
      unfold handleData
      rw [hlo]
    rw [heq]
    exact Or.inl ⟨rfl, fun f h => nomatch h⟩
  | some obj =>
    by_cases hcond : (r.handshake.serverHash.isSome = true ∨
        r.handshake.serverProtocol.isSome = true)
    · cases hsh : r.handshake.serverHash with
      | none =>
        have heq : handleData ps st r =
            (st, .crash "TypeError: null serverHash has no toString") := by
          unfold handleData
          rw [hlo]
          dsimp only
          rw [if_pos hcond, hsh]
        rw [heq]
        exact Or.inl ⟨rfl, fun f h => nomatch h⟩
      | some sh =>
        cases hsp : r.handshake.serverProtocol.bind ps with
        | none =>
          have heq : handleData ps st r =
              (st, .crash "ReferenceError: destroy is not defined") := by
            unfold handleData
            rw [hlo]
            dsimp only
            rw [if_pos hcond, hsh]
            dsimp only
            rw [hsp]
          rw [heq]
          exact Or.inl ⟨rfl, fun f h => nomatch h⟩
        | some svc =>
          have heq : handleData ps st r =
              finishData
                { st with
                  serverServices := ainsert st.serverServices sh svc
                  hashes := ainsert st.hashes obj.preq.service.hash sh } r obj (some svc) := by
            unfold handleData
            rw [hlo]
            dsimp only
            rw [if_pos hcond, hsh]
            dsimp only
            rw [hsp]
          rw [heq]
          rcases finishData_shape
              { st with
                serverServices := ainsert st.serverServices sh svc
                hashes := ainsert st.hashes obj.preq.service.hash sh } r obj (some svc) with
            ⟨_, h2, heq2⟩ | heq2
          · rw [heq2]
            exact Or.inr (Or.inl ⟨obj, rfl, h2, rfl, _, rfl, rfl⟩)
          · rw [heq2]
            exact Or.inr (Or.inr ⟨rfl, fun f h => nomatch h⟩)
    · have heq : handleData ps st r =
          finishData st r obj (resolveServerSvc st obj.preq.service) := by
        unfold handleData
        rw [hlo]
        dsimp only
        rw [if_neg hcond]
      rw [heq]
      rcases finishData_shape st r obj (resolveServerSvc st obj.preq.service) with
        ⟨_, h2, heq2⟩ | heq2
      · rw [heq2]
        exact Or.inr (Or.inl ⟨obj, rfl, h2, rfl, _, rfl, rfl⟩)
      · rw [heq2]
        exact Or.inr (Or.inr ⟨rfl, fun f h => nomatch h⟩)

theorem handleData_wf (ps : String → Option Service) (st : BridgeState) (r : RespObj)
    (hwf : BridgeWF st) : BridgeWF (handleData ps st r).1 := by
  rcases handleData_shape ps st r with ⟨hcb, _⟩ | ⟨o, ho, _, hcb, _⟩ | ⟨hcb, _⟩
  · exact ⟨by rw [hcb]; exact hwf.1, by rw [hcb]; exact hwf.2⟩
  · constructor
    · rw [hcb]
      exact nodup_keys_ainsert _ _ _ hwf.1
    · intro p hp
      rw [hcb] at hp
      rcases mem_ainsert _ _ _ p hp with h1 | h1
      · have hid : o.preq.id = r.id := hwf.2 (r.id, o) (alookup_mem _ _ _ ho)
        rw [h1]
        exact hid
      · exact hwf.2 p h1
  · constructor
    · rw [hcb]
      exact nodup_keys_aerase _ _ hwf.1
    · intro p hp
      rw [hcb] at hp
      exact hwf.2 p (mem_aerase _ _ p hp)

theorem isResendFor_false (i : Int) (a : BridgeAction)
    (h : ∀ f, a ≠ BridgeAction.resend f) : isResendFor i a = false := by
  cases a with
  | resend f => exact absurd rfl (h f)
  | ignore => rfl
  | crash m => rfl
  | deliver j s p => rfl

theorem isCrash_not_resend (i : Int) (a : BridgeAction) (h : isCrash a = true) :
    isResendFor i a = false := by
  cases a with
  | crash m => rfl
  | ignore => simp [isCrash] at h
  | resend f => simp [isCrash] at h
  | deliver j s p => simp [isCrash] at h

theorem countResends_nil (i : Int) : countResends i [] = 0 := rfl

theorem countResends_cons (i : Int) (a : BridgeAction) (acts : List BridgeAction) :
    countResends i (a :: acts) =
      (if isResendFor i a = true then 1 else 0) + countResends i acts := by
  unfold countResends
  rw [List.filter_cons]
  by_cases ha : isResendFor i a = true
  · rw [if_pos ha, if_pos ha, List.length_cons]
    omega
  · rw [if_neg ha, if_neg ha]
    omega

theorem settled_step (ps : String → Option Service) (st : BridgeState) (r : RespObj) (i : Int)
    (hwf : BridgeWF st) (hs : Settled st i) :
    isResendFor i (handleData ps st r).2 = false ∧ Settled (handleData ps st r).1 i := by
  rcases handleData_shape ps st r with ⟨hcb, hnr⟩ | ⟨o, ho, hof, hcb, f, hf, hfid⟩ | ⟨hcb, hnr⟩
  · exact ⟨isResendFor_false i _ hnr, fun o ho2 => hs o (by rw [hcb] at ho2; exact ho2)⟩
  · have hne : i ≠ r.id := by
      intro hir
      subst hir
      exact absurd (hs o ho) (by rw [hof]; exact Bool.false_ne_true)
    constructor
    · rw [hf]
      have : (f.id == i) = false := by
        rw [hfid, hwf.2 (r.id, o) (alookup_mem _ _ _ ho)]
        exact beq_eq_false_iff_ne.mpr (fun hx => hne hx.symm)
      exact this
    · intro o2 ho2
      rw [hcb, alookup_ainsert_ne _ _ _ _ hne] at ho2
      exact hs o2 ho2
  · refine ⟨isResendFor_false i _ hnr, ?_⟩
    intro o2 ho2
    rw [hcb] at ho2
    by_cases hir : i = r.id
    · subst hir
      rw [alookup_aerase_self _ _ hwf.1] at ho2
      exact nomatch ho2
    · rw [alookup_aerase_ne _ _ _ hir] at ho2
      exact hs o2 ho2

theorem resend_step (ps : String → Option Service) (st : BridgeState) (r : RespObj) (i : Int)
    (hwf : BridgeWF st) (hres : isResendFor i (handleData ps st r).2 = true) :
    Settled (handleData ps st r).1 i := by
  rcases handleData_shape ps st r with ⟨hcb, hnr⟩ | ⟨o, ho, hof, hcb, f, hf, hfid⟩ | ⟨hcb, hnr⟩
  · rw [isResendFor_false i _ hnr] at hres
    exact nomatch hres
  · have hir : i = r.id := by
      rw [hf] at hres
      have hfi : f.id = i := beq_iff_eq.mp hres
      rw [← hfi, hfid]
      exact hwf.2 (r.id, o) (alookup_mem _ _ _ ho) ▸ rfl
    subst hir
    intro o2 ho2
    rw [hcb, alookup_ainsert_self] at ho2
    rw [← Option.some.inj ho2]
  · rw [isResendFor_false i _ hnr] at hres
    exact nomatch hres

theorem countResends_settled (ps : String → Option Service) (i : Int) (rs : List RespObj) :
    ∀ st : BridgeState, BridgeWF st → Settled st i →
      countResends i (processResponses ps st rs).2 = 0 := by
  induction rs with
  | nil =>
    intro st _ _
    rfl
  | cons r rs ih =>
    intro st hwf hs
    rw [processResponses]
    dsimp only
    by_cases hcr : isCrash (handleData ps st r).2 = true
    · rw [if_pos hcr]
      rw [countResends_cons, isCrash_not_resend i _ hcr]
      simp [countResends_nil]
    · rw [if_neg hcr]
      dsimp only
      rw [countResends_cons, (settled_step ps st r i hwf hs).1]
      simp only [Bool.false_eq_true, if_false, Nat.zero_add]
      exact ih (handleData ps st r).1 (handleData_wf ps st r hwf)
        (settled_step ps st r i hwf hs).2

theorem countResends_le_one (ps : String → Option Service) (i : Int) (rs : List RespObj) :
    ∀ st : BridgeState, BridgeWF st →
      countResends i (processResponses ps st rs).2 ≤ 1 := by
  induction rs with
  | nil =>
    intro st _
    rw [processResponses]
    exact Nat.zero_le 1
  | cons r rs ih =>
    intro st hwf
    rw [processResponses]
    dsimp only
    by_cases hcr : isCrash (handleData ps st r).2 = true
    · rw [if_pos hcr]
      rw [countResends_cons, isCrash_not_resend i _ hcr]
      simp [countResends_nil]
    · rw [if_neg hcr]
      dsimp only
      rw [countResends_cons]
      by_cases hres : isResendFor i (handleData ps st r).2 = true
      · rw [if_pos hres]
        rw [countResends_settled ps i rs (handleData ps st r).1
          (handleData_wf ps st r hwf) (resend_step ps st r i hwf hres)]
      · rw [if_neg hres]
        have := ih (handleData ps st r).1 (handleData_wf ps st r hwf)
        omega

/-- C3: at most one retry per call: a NONE-match response for a pending call
that has not yet retried flips its `retried` flag and causes exactly one
resend whose handshake carries the client protocol text (the JSON of the
client service protocol); a NONE-match response for an already-retried call
is delivered to the continuation as-is; and over any sequence of processed
responses, a well-formed bridge emits at most one resend for a given call
id. -/
theorem C3_single_retry (ps : String → Option Service) (st : BridgeState) (i : Int)
    (obj : CallObj) (resp : RespObj)
    (hwf : BridgeWF st)
    (hobj : alookup st.callbacks i = some obj)
    (hid : resp.id = i)
    (hm : resp.handshake.matchKind = MatchKind.NONE)
    (hsh : resp.handshake.serverHash = none)
    (hsp : resp.handshake.serverProtocol = none) :
    (obj.retried = false →
      handleData ps st resp =
        ({ st with callbacks := ainsert st.callbacks i { obj with retried := true } },
         .resend (sendObj
           { st with callbacks := ainsert st.callbacks i { obj with retried := true } }
           obj.preq obj.meta true)) ∧
      (sendObj { st with callbacks := ainsert st.callbacks i { obj with retried := true } }
          obj.preq obj.meta true).handshake.clientProtocol
        = some obj.preq.service.protocol) ∧
    (obj.retried = true →
      handleData ps st resp =
        ({ st with callbacks := aerase st.callbacks i },
         .deliver i (resolveServerSvc st obj.preq.service) resp.packet)) ∧
    (∀ rs : List RespObj, countResends i (processResponses ps st rs).2 ≤ 1) := by
  subst hid
  have hbranch : handleData ps st resp =
      finishData st resp obj (resolveServerSvc st obj.preq.service) := by
    unfold handleData
    rw [hobj]
    dsimp only
    rw [if_neg (by rw [hsh, hsp]; simp)]
  refine ⟨?_, ?_, ?_⟩
  · intro hr
    constructor
    · rw [hbranch]
      unfold finishData
      rw [if_pos ⟨hm, hr⟩]
    · rfl
  · intro hr
    rw [hbranch]
    unfold finishData
    rw [if_neg (by rw [hr]; intro hcon; exact Bool.noConfusion hcon.2)]
  · intro rs
    exact countResends_le_one ps resp.id rs st hwf

theorem C3_single_retry_witness :
    countResends 1 (processResponses (fun _ => none) stW [respNone, respNone]).2 ≤ 1 :=
  (C3_single_retry (fun _ => none) stW 1 objW respNone ⟨by decide, by decide⟩ (by decide)
    rfl rfl rfl rfl).2.2 [respNone, respNone]

/-- C6 (code bug): the claim says a server-protocol parse failure is fatal to
the bridge — destroyed, every pending continuation interrupted, the error
emitted; the catch at line 178 calls the bare identifier `destroy`, while the
method is `this.destroy`, so a ReferenceError escapes the data handler
instead: the bridge state is untouched (not closed, the pending call still
tracked) and the failing response is not delivered. -/
theorem C6_parse_failure_code_bug :
    handleData (fun _ => none) stW respBadProtocol =
      (stW, .crash "ReferenceError: destroy is not defined") ∧
    stW.closed = false ∧ alookup stW.callbacks 1 = some objW :=
  ⟨rfl, rfl, rfl⟩

/-- C7 (code bug): a call issued on a closed bridge fails its continuation
synchronously with `bridge closed` and adds no pending entry, as the claim
says, BUT the channel handler at lines 240-241 calls `_send` unconditionally
with the undefined meta returned by the aborted `_track`, so a frame group IS
written to the encoder, contradicting the claim that no frame group reaches
the encoder after close. -/
theorem C7_closed_call_code_bug :
    channelCall (some [0]) none stClosed preqW =
      (stClosed,
       [.cbError "bridge closed", .encoderWrite (sendObj stClosed preqW none false)]) ∧
    stClosed.callbacks = [] ∧
    (sendObj stClosed preqW none false).handshake.meta = none :=
  ⟨rfl, rfl, rfl⟩

/-- C4 (code bug): for an unknown client hash with no client protocol on a
gateway whose router owns exactly one service, the claim (and the spec
intent) attach that single service protocol and hash to the match NONE
response; `router.services` is a JS array, whose `.size` property is
undefined, so `serverSvcs.size === 1` is false and the single-service branch
is never taken (were it taken, reading `serverSvc` before its later `const`
declaration would raise a ReferenceError): the emitted NONE response carries
no serverProtocol and no serverHash, only the UNKNOWN_CLIENT_PROTOCOL system
error payload. -/
theorem C4_none_single_service_code_bug :
    gatewayHandle gwExt none [] (some hreqUnknown) 7 pktEmpty =
      (none, [],
       .respond { matchKind := .NONE, serverProtocol := none, serverHash := none }
         { headers := [], body := [1, 0, 9] }) ∧
    gwExt.routerServices.length = 1 :=
  ⟨rfl, rfl⟩

/-- C5 (code bug): when the client service resolves but the router reports no
matching server service, the claim says the gateway responds match CLIENT
with the server protocol text and hash and still forwards the request; the
code enters `if (!serverSvc)` and immediately dereferences the undefined
`serverSvc` (`serverSvc.protocol`), raising a TypeError: no response is
written and the request is never forwarded to the router channel. -/
theorem C5_client_match_code_bug :
    gatewayHandle gwExt none [("client-hash", svcClient)] (some hreqKnown) 8 pktEmpty =
      (some svcClient, [("client-hash", svcClient)],
       .crash "TypeError: cannot read protocol of undefined") :=
  rfl

/-- C10 (code bug): constructing a bridge over two distinct readable and
writable streams should complete and register the writable error handler
(the instance field `this._onWritableError`); line 152 instead evaluates the
bare identifier `onWritableError`, which names nothing in the constructor
scope, so the construction raises a ReferenceError — while the same-stream
construction never evaluates that line and completes. -/
theorem C10_distinct_streams_code_bug :
    bridgeConstruct true = .error "ReferenceError: onWritableError is not defined" ∧
    (bridgeConstruct false).isOk = true :=
  ⟨rfl, rfl⟩

end Netty
